import Mathlib

/-!
# Verification of the SFU signaling gateway

Shallow embedding of `src/signaling/signaling.gateway.ts` (class
`SignalingGateway`) together with the shared lookup tables of
`src/mediasoup/mediasoup.service.ts` (class `MediasoupService`).

State layout mirrors the source:
  * `rooms`            : `Map<string, Set<string>>`  (roomId -> member clientIds)
  * `clientRooms`      : `Map<string, string>`       (clientId -> roomId)
  * `clientProducers`  : `Map<string, string[]>`     (clientId -> producerId[])
  * `transports`, `producers`, `consumers`, `userTransports`: the
    MediasoupService tables.

JavaScript `Map`s that are only read by key lookup are modelled as
`String → Option α`; `clientProducers` is additionally iterated in insertion
order (`Array.from(this.clientProducers.entries()).find(...)` in `consume`),
so it is kept as an insertion-ordered association list, exactly as a JS `Map`
behaves.  Media-engine calls and socket notifications are recorded as an
explicit event list; engine-generated fresh identifiers (producer, consumer,
transport ids) are passed to each handler as explicit arguments.
-/

namespace Sfu

/-- Media kinds and negotiation blobs are carried as strings, as in the
source (`data.kind` is passed through untyped). -/
abbrev Id := String

/-- `Map.set` on a key-lookup map. -/
def mset {α : Type} (m : Id → Option α) (k : Id) (v : α) : Id → Option α :=
  fun k' => if k' = k then some v else m k'

/-- `Map.delete` on a key-lookup map. -/
def mdel {α : Type} (m : Id → Option α) (k : Id) : Id → Option α :=
  fun k' => if k' = k then none else m k'

/-- Lookup in an insertion-ordered association list (JS `Map.get`). -/
def alookup {α : Type} : List (Id × α) → Id → Option α
  | [], _ => none
  | e :: es, k => if e.1 = k then some e.2 else alookup es k

/-- The producer list of a client, `this.clientProducers.get(otherId) || []`. -/
def cpList (cp : List (Id × List Id)) (c : Id) : List Id :=
  (alookup cp c).getD []

/-- `if (!map.has(c)) map.set(c, []); map.get(c).push(pid)` on a JS `Map`:
an existing entry is extended in place, a missing one is appended. -/
def cpPush (cp : List (Id × List Id)) (c pid : Id) : List (Id × List Id) :=
  match alookup cp c with
  | none => cp ++ [(c, [pid])]
  | some _ => cp.map (fun e => if e.1 = c then (e.1, e.2 ++ [pid]) else e)

/-- `Map.delete(c)` on the association list. -/
def cpDelete (cp : List (Id × List Id)) (c : Id) : List (Id × List Id) :=
  cp.filter (fun e => e.1 ≠ c)

/-- `Set.add` (JS sets keep insertion order and deduplicate). -/
def saddMem (l : List Id) (c : Id) : List Id :=
  if c ∈ l then l else l ++ [c]

/-- `Set.delete`. -/
def sdelMem (l : List Id) (c : Id) : List Id :=
  l.filter (fun x => x ≠ c)

/-- `producer?.kind || 'audio'`: JS string falsiness — `undefined` and the
empty string both fall back to `'audio'`. -/
def kindOrAudio (k : Option Id) : Id :=
  match k with
  | none => "audio"
  | some s => if s = "" then "audio" else s

/-- `Array.from(this.clientProducers.entries()).find(([, producers]) =>
producers.includes(producerId))?.[0]` — the owning client of a producer. -/
def ownerOf (cp : List (Id × List Id)) (pid : Id) : Option Id :=
  (cp.find? (fun e => e.2.contains pid)).map Prod.fst

/-- The request-scoped errors thrown by the gateway handlers. -/
inductive Err : Type
  | TransportNotFound
  | ProducerNotFound
  | CannotConsumeOwnProducer
  deriving DecidableEq, Repr

/-- Outbound effects: socket notifications (with the recipient set computed
at emit time, `client.to(roomId)` = room members except the sender) and
media-engine calls. -/
inductive Event : Type
  | userJoined (recipients : List Id) (clientId : Id)
  | userLeft (recipients : List Id) (clientId : Id)
  | newProducer (recipients : List Id) (producerId clientId kind : Id)
  | engineProduce (transportId kind newProducerId : Id)
  | engineConsume (transportId producerId : Id) (startPaused : Bool)
  | engineConnect (transportId : Id)
  | engineResume (consumerId : Id)
  deriving DecidableEq, Repr

/-- One element of the `existingProducers` payload returned by `join`. -/
structure ProducerInfo : Type where
  producerId : Id
  clientId : Id
  kind : Id
  deriving DecidableEq, Repr

/-- Result payload of `join`. -/
structure JoinRes : Type where
  joined : Bool
  existingProducers : List ProducerInfo
  deriving DecidableEq, Repr

/-- Result payload of `consume` (rtpParameters are opaque and omitted). -/
structure ConsumeRes : Type where
  id : Id
  producerId : Id
  kind : Id
  deriving DecidableEq, Repr

/-- The process-wide mutable state: the gateway's three maps plus the
MediasoupService tables.  A stored producer is its `kind`; a stored consumer
is its `paused` flag. -/
@[ext]
structure GatewayState : Type where
  rooms : Id → Option (List Id)
  clientRooms : Id → Option Id
  clientProducers : List (Id × List Id)
  transports : Id → Option Unit
  producers : Id → Option Id
  consumers : Id → Option Bool
  userTransports : Id → Option Unit

/-- Fresh process state: every table empty. -/
def initState : GatewayState where
  rooms := fun _ => none
  clientRooms := fun _ => none
  clientProducers := []
  transports := fun _ => none
  producers := fun _ => none
  consumers := fun _ => none
  userTransports := fun _ => none

/-- A handler run: the post state, the emitted events in order, and the
acknowledgment payload. -/
structure StepOut (ρ : Type) : Type where
  state : GatewayState
  events : List Event
  result : ρ

/-- `this.rooms.get(roomId)` viewed as a member list (empty if absent). -/
def membersOf (s : GatewayState) (roomId : Id) : List Id :=
  (s.rooms roomId).getD []

/-- `handleDisconnect(client)`: the `if (roomId)` guard is a JS truthiness
test, so a client mapped to the empty-string room skips the whole block
(member-set removal, `userLeft` and the `clientRooms` delete alike); a
truthy room id gets the member removed, the remaining members notified with
`userLeft` and the `clientRooms` entry deleted.  `clientProducers.delete`
is unconditional; the engine tables are left untouched. -/
def handleDisconnect (s : GatewayState) (clientId : Id) : StepOut Unit :=
  match s.clientRooms clientId with
  | some roomId =>
    if roomId = "" then
      { state :=
          { s with clientProducers := cpDelete s.clientProducers clientId },
        events := [],
        result := () }
    else
      match s.rooms roomId with
      | some room =>
        let room' := sdelMem room clientId
        { state := { s with
            rooms := mset s.rooms roomId room',
            clientRooms := mdel s.clientRooms clientId,
            clientProducers := cpDelete s.clientProducers clientId },
          events := [Event.userLeft room' clientId],
          result := () }
      | none =>
        { state := { s with
            clientRooms := mdel s.clientRooms clientId,
            clientProducers := cpDelete s.clientProducers clientId },
          events := [],
          result := () }
  | none =>
    { state := { s with clientProducers := cpDelete s.clientProducers clientId },
      events := [],
      result := () }

/-- The "Leave previous room if any" block of `joinRoom`:
`this.rooms.get(previousRoom)?.delete(client.id)` guarded by
`if (previousRoom)` — a JS truthiness test, so a previous room recorded as
the empty string is falsy and the block is skipped. -/
def leaveRooms (s : GatewayState) (clientId : Id) : Id → Option (List Id) :=
  match s.clientRooms clientId with
  | some previousRoom =>
    if previousRoom = "" then s.rooms
    else
      match s.rooms previousRoom with
      | some l => mset s.rooms previousRoom (sdelMem l clientId)
      | none => s.rooms
  | none => s.rooms

/-- The loop body of `joinRoom`'s "Get existing producers in room":
`(this.clientProducers.get(otherId) || []).map(pid => ({producerId: pid,
clientId: otherId, kind: this.ms.producers.get(pid)?.kind || 'audio'}))`. -/
def producerEntries (s : GatewayState) (otherId : Id) : List ProducerInfo :=
  (cpList s.clientProducers otherId).map (fun pid =>
    { producerId := pid, clientId := otherId,
      kind := kindOrAudio (s.producers pid) })

/-- `joinRoom(data, client)`: silently leave the previous room (no
notification is emitted there), enter the target room (creating it when
absent), enumerate the other members' producers (skipping
`otherId === client.id`), and emit `userJoined` to the other members of the
target room. -/
def joinRoom (s : GatewayState) (clientId roomId : Id) : StepOut JoinRes :=
  let rooms1 := leaveRooms s clientId
  let clientRooms1 := mset s.clientRooms clientId roomId
  -- if (!this.rooms.has(roomId)) this.rooms.set(roomId, new Set())
  let rooms2 :=
    match rooms1 roomId with
    | none => mset rooms1 roomId []
    | some _ => rooms1
  -- this.rooms.get(roomId).add(client.id)
  let rooms3 := mset rooms2 roomId (saddMem ((rooms2 roomId).getD []) clientId)
  let s' : GatewayState := { s with rooms := rooms3, clientRooms := clientRooms1 }
  -- Get existing producers in room
  let existing :=
    (sdelMem ((rooms3 roomId).getD []) clientId).flatMap (producerEntries s)
  -- Notify others in room
  let recipients := sdelMem ((rooms3 roomId).getD []) clientId
  { state := s',
    events := [Event.userJoined recipients clientId],
    result := { joined := true, existingProducers := existing } }

/-- `produce(data, client)`: look up the transport (`Transport not found` on
miss, no side effect), create the producer through the engine, register it
in `this.ms.producers` and `this.clientProducers`, and notify the room (if
the client is in one) with `newProducer`. -/
def produce (s : GatewayState) (clientId transportId kind newProducerId : Id) :
    StepOut (Except Err Id) :=
  match s.transports transportId with
  | none => { state := s, events := [], result := .error .TransportNotFound }
  | some _ =>
    let producers' := mset s.producers newProducerId kind
    let cp' := cpPush s.clientProducers clientId newProducerId
    let notifEvents :=
      match s.clientRooms clientId with
      | some roomId =>
        -- if (roomId): JS truthiness, the empty-string room skips the emit
        if roomId = "" then []
        else
          [Event.newProducer (sdelMem (membersOf s roomId) clientId)
            newProducerId clientId kind]
      | none => []
    { state := { s with producers := producers', clientProducers := cp' },
      events := Event.engineProduce transportId kind newProducerId :: notifEvents,
      result := .ok newProducerId }

/-- `consume(data, client)`: transport then producer lookup (`Transport not
found` / `Producer not found`), then the anti-echo guard (`Cannot consume
own producer`), then the engine call with `paused: false` (the source
comments this `// Start unpaused`) and registration in `this.ms.consumers`. -/
def consume (s : GatewayState) (clientId transportId producerId newConsumerId : Id) :
    StepOut (Except Err ConsumeRes) :=
  match s.transports transportId with
  | none => { state := s, events := [], result := .error .TransportNotFound }
  | some _ =>
    match s.producers producerId with
    | none => { state := s, events := [], result := .error .ProducerNotFound }
    | some producerKind =>
      let producerClientId := ownerOf s.clientProducers producerId
      if producerClientId = some clientId then
        { state := s, events := [], result := .error .CannotConsumeOwnProducer }
      else
        { state := { s with consumers := mset s.consumers newConsumerId false },
          events := [Event.engineConsume transportId producerId false],
          result := .ok { id := newConsumerId, producerId := producerId,
                          kind := producerKind } }

/-- `resumeConsumer(data)`: resume through the engine when the consumer is
known, silently log otherwise; always acknowledge `{resumed: true}`. -/
def resumeConsumer (s : GatewayState) (consumerId : Id) : StepOut Bool :=
  match s.consumers consumerId with
  | some _ =>
    { state := { s with consumers := mset s.consumers consumerId false },
      events := [Event.engineResume consumerId],
      result := true }
  | none => { state := s, events := [], result := true }

/-- `connectTransport(data)`: transport lookup, then the engine DTLS
handshake; `{connected: true}` on success. -/
def connectTransport (s : GatewayState) (transportId : Id) :
    StepOut (Except Err Bool) :=
  match s.transports transportId with
  | none => { state := s, events := [], result := .error .TransportNotFound }
  | some _ =>
    { state := s, events := [Event.engineConnect transportId], result := .ok true }

/-- `createTransport(client)`: allocate a transport through the engine,
record it in `this.ms.transports` (and `userTransports`). -/
def createTransport (s : GatewayState) (clientId newTransportId : Id) :
    StepOut Id :=
  let userTransports' :=
    match s.userTransports clientId with
    | none => mset s.userTransports clientId ()
    | some _ => s.userTransports
  { state := { s with
      transports := mset s.transports newTransportId (),
      userTransports := userTransports' },
    events := [],
    result := newTransportId }

/-- One inbound request (or disconnect), tagged with the issuing client and
carrying the engine-generated fresh id where the handler creates an
object. -/
inductive Op : Type
  | join (clientId roomId : Id)
  | produce (clientId transportId kind newProducerId : Id)
  | consume (clientId transportId producerId newConsumerId : Id)
  | resumeConsumer (clientId consumerId : Id)
  | connectTransport (clientId transportId : Id)
  | createTransport (clientId newTransportId : Id)
  | disconnect (clientId : Id)
  deriving DecidableEq, Repr

/-- State transition of one operation. -/
def stepOp (s : GatewayState) : Op → GatewayState
  | .join c r => (joinRoom s c r).state
  | .produce c t k pid => (produce s c t k pid).state
  | .consume c t pid cid => (consume s c t pid cid).state
  | .resumeConsumer _ cid => (resumeConsumer s cid).state
  | .connectTransport _ t => (connectTransport s t).state
  | .createTransport c t => (createTransport s c t).state
  | .disconnect c => (handleDisconnect s c).state

/-- Engine-generated identifiers are fresh (mediasoup produces UUIDs): a
trace is well formed when each created producer/consumer/transport id is not
already in its table. -/
def okOp (s : GatewayState) : Op → Bool
  | .produce _ _ _ pid => (s.producers pid).isNone
  | .consume _ _ _ cid => (s.consumers cid).isNone
  | .createTransport _ tid => (s.transports tid).isNone
  | _ => true

/-- Well-formedness of a trace from a given state. -/
def wfFrom (s : GatewayState) : List Op → Bool
  | [] => true
  | op :: rest => okOp s op && wfFrom (stepOp s op) rest

/-- Run a trace. -/
def execFrom (s : GatewayState) : List Op → GatewayState
  | [] => s
  | op :: rest => execFrom (stepOp s op) rest

/-- Room bookkeeping consistency: an endpoint listed in a room's member set
is mapped to that room by `clientRooms`. -/
def RoomConsistent (s : GatewayState) : Prop :=
  ∀ r c, c ∈ membersOf s r → s.clientRooms c = some r

/-- `clientProducers` has `Map` semantics: one entry per client. -/
def CpKeysNodup (s : GatewayState) : Prop :=
  (s.clientProducers.map Prod.fst).Nodup

/-- Every producer id in the directory is present in the engine's producer
table (the table never shrinks, the directory only on disconnect). -/
def CpInProducers (s : GatewayState) : Prop :=
  ∀ e ∈ s.clientProducers, ∀ pid ∈ e.2, (s.producers pid).isSome = true

/-- A producer id occurs in at most one client's producer list. -/
def CpDisjoint (s : GatewayState) : Prop :=
  ∀ e1 ∈ s.clientProducers, ∀ e2 ∈ s.clientProducers, ∀ pid : Id,
    pid ∈ e1.2 → pid ∈ e2.2 → e1.1 = e2.1

/-- No endpoint is mapped to the empty-string room (the room id JS treats
as falsy in the `if (roomId)` / `if (previousRoom)` guards). -/
def NoEmptyRoom (s : GatewayState) : Prop :=
  ∀ c : Id, s.clientRooms c ≠ some ""

/-- The room-bookkeeping invariant; it holds along traces whose joins obey
the spec's precondition that roomId is a non-empty identifier. -/
def RoomInv (s : GatewayState) : Prop :=
  RoomConsistent s ∧ NoEmptyRoom s

/-- The producer-directory invariant; it holds along every trace with
engine-fresh producer ids, independently of room ids. -/
def CpInv (s : GatewayState) : Prop :=
  CpKeysNodup s ∧ CpInProducers s ∧ CpDisjoint s

/-- Whether an operation is a `join` issued by endpoint `d`. -/
def joinsBy (d : Id) : Op → Bool
  | .join c _ => c = d
  | _ => false

/-- The spec's precondition on `join`: the room id is a non-empty
identifier.  (The code never validates it; traces violating it exercise
the falsy-guard behaviors.) -/
def joinValid : Op → Bool
  | .join _ rt => rt ≠ ""
  | _ => true

/-- Concrete run: A and B share room r1, A has produced audio producer p1,
both have transports. -/
def sProduced : GatewayState :=
  execFrom initState
    [.join "A" "r1", .join "B" "r1", .createTransport "A" "tA",
     .produce "A" "tA" "audio" "p1", .createTransport "B" "tB"]

/-- Concrete run: A produced p1 on its own transport tA. -/
def sSelf : GatewayState :=
  execFrom initState
    [.join "A" "r1", .createTransport "A" "tA", .produce "A" "tA" "audio" "p1"]

/-- Concrete run: A and B in r1, C in r2. -/
def sTwoRooms : GatewayState :=
  execFrom initState [.join "A" "r1", .join "B" "r1", .join "C" "r2"]

/-- Concrete run: A and B in r1. -/
def sAB : GatewayState :=
  execFrom initState [.join "A" "r1", .join "B" "r1"]

/-- Concrete run: B joined the empty-string room (nothing validates the
room id, so this request reaches the gateway). -/
def sEmptyRoom : GatewayState :=
  execFrom initState [.join "B" ""]

/-- Concrete run: A joined the empty-string room, then room r1; the falsy
`if (previousRoom)` guard skips the leave, so A sits in both member sets. -/
def sDoubleJoin : GatewayState :=
  execFrom initState [.join "A" "", .join "A" "r1"]

/-- A state whose producer directory lists p1 for B while the engine
producer table has no entry for p1 (the directory and the table are
independent maps, so the code must cope with this shape). -/
def sOrphan : GatewayState where
  rooms := fun r => if r = "r1" then some ["B"] else none
  clientRooms := fun c => if c = "B" then some "r1" else none
  clientProducers := [("B", ["p1"])]
  transports := fun _ => none
  producers := fun _ => none
  consumers := fun _ => none
  userTransports := fun _ => none

/-! ## Basic lemmas about the map and list primitives -/

lemma mset_apply {α : Type} (m : Id → Option α) (k : Id) (v : α) (k' : Id) :
    mset m k v k' = if k' = k then some v else m k' := rfl

lemma mdel_apply {α : Type} (m : Id → Option α) (k : Id) (k' : Id) :
    mdel m k k' = if k' = k then none else m k' := rfl

lemma mem_of_alookup {α : Type} {cp : List (Id × α)} {c : Id} {l : α}
    (h : alookup cp c = some l) : (c, l) ∈ cp := by
  induction cp with
  | nil => simp [alookup] at h
  | cons e es ih =>
    rw [alookup] at h
    by_cases hc : e.1 = c
    · simp only [hc, if_pos] at h
      obtain ⟨a, b⟩ := e
      simp at hc h
      subst hc h
      exact List.mem_cons_self _ _
    · simp only [hc, if_neg, if_false] at h
      exact List.mem_cons_of_mem _ (ih h)

lemma alookup_map_update {α : Type} (cp : List (Id × α)) (c : Id) (g : α → α)
    (k : Id) :
    alookup (cp.map (fun e => if e.1 = c then (e.1, g e.2) else e)) k =
      if k = c then (alookup cp k).map g else alookup cp k := by
  induction cp with
  | nil => by_cases hk : k = c <;> simp [alookup, hk]
  | cons e es ih =>
    obtain ⟨a, b⟩ := e
    by_cases hac : a = c
    · subst hac
      by_cases hak : a = k
      · subst hak
        simp [alookup]
      · have hka : ¬ k = a := fun h => hak h.symm
        simp [alookup, hak, hka, ih]
    · by_cases hak : a = k
      · subst hak
        have hka : ¬ a = c := hac
        simp [alookup, hka]
      · have hka : ¬ k = a := fun h => hak h.symm
        simp [alookup, hac, hak, ih]

lemma alookup_append_single {α : Type} (cp : List (Id × α)) (c : Id) (v : α)
    (k : Id) :
    alookup (cp ++ [(c, v)]) k =
      match alookup cp k with
      | some l => some l
      | none => if k = c then some v else none := by
  induction cp with
  | nil =>
    by_cases hck : c = k
    · subst hck
      simp [alookup]
    · have hkc : ¬ k = c := fun h => hck h.symm
      simp [alookup, hck, hkc]
  | cons e es ih =>
    by_cases hk : e.1 = k
    · simp [alookup, hk]
    · simp [alookup, hk, ih]

lemma alookup_cpDelete (cp : List (Id × List Id)) (c k : Id) :
    alookup (cpDelete cp c) k = if k = c then none else alookup cp k := by
  induction cp with
  | nil => simp [cpDelete, alookup]
  | cons e es ih =>
    obtain ⟨a, b⟩ := e
    by_cases hac : a = c
    · subst hac
      have hhead : cpDelete ((a, b) :: es) a = cpDelete es a := by
        simp [cpDelete]
      rw [hhead, ih]
      by_cases hka : k = a
      · simp [hka]
      · have hak : ¬ a = k := fun h => hka h.symm
        simp [alookup, hka, hak]
    · have hhead : cpDelete ((a, b) :: es) c = (a, b) :: cpDelete es c := by
        simp [cpDelete, hac]
      rw [hhead]
      by_cases hak : a = k
      · subst hak
        have hkc : ¬ a = c := hac
        simp [alookup, hkc]
      · simp [alookup, hak, ih]

lemma cpList_cpDelete (cp : List (Id × List Id)) (c k : Id) :
    cpList (cpDelete cp c) k = if k = c then [] else cpList cp k := by
  unfold cpList
  rw [alookup_cpDelete]
  by_cases hk : k = c <;> simp [hk]

lemma cpList_cpPush (cp : List (Id × List Id)) (c pid k : Id) :
    cpList (cpPush cp c pid) k =
      if k = c then cpList cp c ++ [pid] else cpList cp k := by
  unfold cpPush
  rcases h : alookup cp c with _ | l
  · rw [cpList, alookup_append_single]
    by_cases hk : k = c
    · subst hk
      simp [cpList, h]
    · rcases h2 : alookup cp k with _ | l2 <;> simp [cpList, h2, hk]
  · show cpList (cp.map fun e => if e.1 = c then (e.1, e.2 ++ [pid]) else e) k = _
    rw [cpList, alookup_map_update cp c (fun v => v ++ [pid]) k]
    by_cases hk : k = c
    · subst hk
      simp [cpList, h]
    · simp [cpList, hk]

lemma keys_cpPush (cp : List (Id × List Id)) (c pid : Id) :
    (cpPush cp c pid).map Prod.fst = cp.map Prod.fst ∨
      (cpPush cp c pid).map Prod.fst = cp.map Prod.fst ++ [c] := by
  unfold cpPush
  rcases h : alookup cp c with _ | l
  · right
    simp
  · left
    rw [List.map_map]
    apply List.map_congr_left
    intro x _
    by_cases hx : x.1 = c <;> simp [hx]

lemma mem_sdelMem {l : List Id} {c x : Id} :
    x ∈ sdelMem l c ↔ x ∈ l ∧ x ≠ c := by
  simp [sdelMem]

lemma self_not_mem_sdelMem (l : List Id) (c : Id) : c ∉ sdelMem l c := by
  simp [sdelMem]

lemma mem_saddMem {l : List Id} {c x : Id} :
    x ∈ saddMem l c ↔ x ∈ l ∨ x = c := by
  unfold saddMem
  by_cases h : c ∈ l
  · simp only [h, if_pos]
    constructor
    · exact Or.inl
    · rintro (hx | rfl)
      · exact hx
      · exact h
  · simp [h]

/-! ## Characterization of each handler's post state -/

lemma leaveRooms_sub {s : GatewayState} {c x r : Id}
    (hx : x ∈ (leaveRooms s c r).getD []) : x ∈ membersOf s r := by
  unfold leaveRooms at hx
  rcases h1 : s.clientRooms c with _ | prev
  · simp only [h1] at hx
    exact hx
  · simp only [h1] at hx
    by_cases hp : prev = ""
    · simp only [if_pos hp] at hx
      exact hx
    · simp only [if_neg hp] at hx
      rcases h2 : s.rooms prev with _ | l
      · simp only [h2] at hx
        exact hx
      · simp only [h2, mset_apply] at hx
        by_cases hr : r = prev
        · subst hr
          simp only [if_pos, Option.getD_some] at hx
          rw [membersOf, h2]
          exact (mem_sdelMem.mp hx).1
        · simp only [if_neg hr] at hx
          exact hx

lemma self_not_mem_leaveRooms {s : GatewayState} {c : Id}
    (h : RoomConsistent s) (hne : s.clientRooms c ≠ some "") (r : Id) :
    c ∉ (leaveRooms s c r).getD [] := by
  intro hc
  have hm : c ∈ membersOf s r := leaveRooms_sub hc
  have hcr : s.clientRooms c = some r := h r c hm
  have hr : r ≠ "" := by
    intro he
    exact hne (he ▸ hcr)
  unfold leaveRooms at hc
  simp only [hcr, if_neg hr] at hc
  rcases h2 : s.rooms r with _ | l
  · simp only [h2] at hc
    rw [membersOf, h2] at hm
    exact absurd hm (List.not_mem_nil c)
  · simp only [h2, mset_apply, if_pos, Option.getD_some] at hc
    exact self_not_mem_sdelMem l c hc

lemma joinRoom_state (s : GatewayState) (c rt : Id) :
    (joinRoom s c rt).state =
      { s with
        rooms := mset (leaveRooms s c) rt
          (saddMem ((leaveRooms s c rt).getD []) c),
        clientRooms := mset s.clientRooms c rt } := by
  unfold joinRoom
  rcases h : leaveRooms s c rt with _ | l
  · simp only [h]
    refine GatewayState.ext ?_ rfl rfl rfl rfl rfl rfl
    funext r
    by_cases hr : r = rt <;> simp [mset_apply, hr, h]
  · simp only [h]

lemma joinRoom_events (s : GatewayState) (c rt : Id) :
    (joinRoom s c rt).events =
      [Event.userJoined (sdelMem (membersOf (joinRoom s c rt).state rt) c) c] :=
  rfl

lemma joinRoom_result (s : GatewayState) (c rt : Id) :
    (joinRoom s c rt).result =
      { joined := true,
        existingProducers :=
          (sdelMem (membersOf (joinRoom s c rt).state rt) c).flatMap
            (producerEntries s) } :=
  rfl

lemma membersOf_handleDisconnect (s : GatewayState) (c r : Id) :
    membersOf (handleDisconnect s c).state r =
      match s.clientRooms c with
      | some roomId =>
        if roomId = "" then membersOf s r
        else if r = roomId then sdelMem (membersOf s roomId) c
        else membersOf s r
      | none => membersOf s r := by
  unfold handleDisconnect
  rcases h1 : s.clientRooms c with _ | roomId
  · rfl
  · by_cases hq : roomId = ""
    · simp only [if_pos hq]
      rfl
    · simp only [if_neg hq]
      rcases h2 : s.rooms roomId with _ | room
      · simp only [h2, membersOf]
        by_cases hr : r = roomId
        · subst hr
          simp [h2, sdelMem]
        · simp [hr]
      · simp only [h2, membersOf, mset_apply]
        by_cases hr : r = roomId
        · subst hr
          simp [h2]
        · simp [hr]

lemma handleDisconnect_clientRooms (s : GatewayState) (c x : Id) :
    (handleDisconnect s c).state.clientRooms x =
      if s.clientRooms c = some "" then s.clientRooms x
      else mdel s.clientRooms c x := by
  unfold handleDisconnect
  rcases h1 : s.clientRooms c with _ | roomId
  · rw [if_neg (by simp : ¬ (none : Option Id) = some "")]
    show s.clientRooms x = _
    rw [mdel_apply]
    by_cases hx : x = c
    · subst hx
      rw [if_pos rfl, h1]
    · rw [if_neg hx]
  · by_cases hq : roomId = ""
    · subst hq
      simp
    · rw [if_neg (by simp [hq] : ¬ (some roomId : Option Id) = some "")]
      simp only [if_neg hq]
      rcases h2 : s.rooms roomId with _ | room <;> simp only [h2]

lemma handleDisconnect_clientProducers (s : GatewayState) (c : Id) :
    (handleDisconnect s c).state.clientProducers =
      cpDelete s.clientProducers c := by
  unfold handleDisconnect
  rcases h1 : s.clientRooms c with _ | roomId
  · rfl
  · by_cases hq : roomId = ""
    · simp only [if_pos hq]
    · simp only [if_neg hq]
      rcases h2 : s.rooms roomId with _ | room <;> simp only [h2]

lemma handleDisconnect_producers (s : GatewayState) (c : Id) :
    (handleDisconnect s c).state.producers = s.producers := by
  unfold handleDisconnect
  rcases h1 : s.clientRooms c with _ | roomId
  · rfl
  · by_cases hq : roomId = ""
    · simp only [if_pos hq]
    · simp only [if_neg hq]
      rcases h2 : s.rooms roomId with _ | room <;> simp only [h2]

lemma handleDisconnect_transports (s : GatewayState) (c : Id) :
    (handleDisconnect s c).state.transports = s.transports := by
  unfold handleDisconnect
  rcases h1 : s.clientRooms c with _ | roomId
  · rfl
  · by_cases hq : roomId = ""
    · simp only [if_pos hq]
    · simp only [if_neg hq]
      rcases h2 : s.rooms roomId with _ | room <;> simp only [h2]

lemma handleDisconnect_consumers (s : GatewayState) (c : Id) :
    (handleDisconnect s c).state.consumers = s.consumers := by
  unfold handleDisconnect
  rcases h1 : s.clientRooms c with _ | roomId
  · rfl
  · by_cases hq : roomId = ""
    · simp only [if_pos hq]
    · simp only [if_neg hq]
      rcases h2 : s.rooms roomId with _ | room <;> simp only [h2]

lemma produce_state (s : GatewayState) (c t k pid : Id) :
    (produce s c t k pid).state =
      if (s.transports t).isSome then
        { s with
          producers := mset s.producers pid k,
          clientProducers := cpPush s.clientProducers c pid }
      else s := by
  unfold produce
  rcases h : s.transports t with _ | u
  · rfl
  · rcases h2 : s.clientRooms c with _ | roomId <;> rfl

lemma produce_notFound (s : GatewayState) (c t k pid : Id)
    (h : s.transports t = none) :
    produce s c t k pid =
      { state := s, events := [], result := .error .TransportNotFound } := by
  unfold produce
  rw [h]

lemma consume_state (s : GatewayState) (c t pid cid : Id) :
    (consume s c t pid cid).state =
      if (s.transports t).isSome ∧ (s.producers pid).isSome ∧
          ownerOf s.clientProducers pid ≠ some c then
        { s with consumers := mset s.consumers cid false }
      else s := by
  unfold consume
  rcases h1 : s.transports t with _ | u
  · simp [h1]
  · rcases h2 : s.producers pid with _ | pk
    · simp [h2]
    · by_cases h3 : ownerOf s.clientProducers pid = some c
      · simp [h3]
      · simp [h3]

lemma resumeConsumer_state (s : GatewayState) (cid : Id) :
    (resumeConsumer s cid).state =
      if (s.consumers cid).isSome then
        { s with consumers := mset s.consumers cid false }
      else s := by
  unfold resumeConsumer
  rcases h : s.consumers cid with _ | b <;> simp [h]

lemma connectTransport_state (s : GatewayState) (t : Id) :
    (connectTransport s t).state = s := by
  unfold connectTransport
  rcases h : s.transports t with _ | u <;> rfl

lemma createTransport_state (s : GatewayState) (c tid : Id) :
    (createTransport s c tid).state =
      { s with
        transports := mset s.transports tid (),
        userTransports :=
          if (s.userTransports c).isSome then s.userTransports
          else mset s.userTransports c () } := by
  unfold createTransport
  rcases h : s.userTransports c with _ | u <;> simp [h]

lemma produce_rooms (s : GatewayState) (c t k pid : Id) :
    (produce s c t k pid).state.rooms = s.rooms := by
  rw [produce_state]
  split <;> rfl

lemma produce_clientRooms (s : GatewayState) (c t k pid : Id) :
    (produce s c t k pid).state.clientRooms = s.clientRooms := by
  rw [produce_state]
  split <;> rfl

lemma consume_rooms (s : GatewayState) (c t pid cid : Id) :
    (consume s c t pid cid).state.rooms = s.rooms := by
  rw [consume_state]
  split <;> rfl

lemma consume_clientRooms (s : GatewayState) (c t pid cid : Id) :
    (consume s c t pid cid).state.clientRooms = s.clientRooms := by
  rw [consume_state]
  split <;> rfl

lemma consume_clientProducers (s : GatewayState) (c t pid cid : Id) :
    (consume s c t pid cid).state.clientProducers = s.clientProducers := by
  rw [consume_state]
  split <;> rfl

lemma consume_producers (s : GatewayState) (c t pid cid : Id) :
    (consume s c t pid cid).state.producers = s.producers := by
  rw [consume_state]
  split <;> rfl

lemma resumeConsumer_rooms (s : GatewayState) (cid : Id) :
    (resumeConsumer s cid).state.rooms = s.rooms := by
  rw [resumeConsumer_state]
  split <;> rfl

lemma resumeConsumer_clientRooms (s : GatewayState) (cid : Id) :
    (resumeConsumer s cid).state.clientRooms = s.clientRooms := by
  rw [resumeConsumer_state]
  split <;> rfl

lemma resumeConsumer_clientProducers (s : GatewayState) (cid : Id) :
    (resumeConsumer s cid).state.clientProducers = s.clientProducers := by
  rw [resumeConsumer_state]
  split <;> rfl

lemma resumeConsumer_producers (s : GatewayState) (cid : Id) :
    (resumeConsumer s cid).state.producers = s.producers := by
  rw [resumeConsumer_state]
  split <;> rfl

lemma createTransport_rooms (s : GatewayState) (c tid : Id) :
    (createTransport s c tid).state.rooms = s.rooms := by
  rw [createTransport_state]

lemma createTransport_clientRooms (s : GatewayState) (c tid : Id) :
    (createTransport s c tid).state.clientRooms = s.clientRooms := by
  rw [createTransport_state]

lemma createTransport_clientProducers (s : GatewayState) (c tid : Id) :
    (createTransport s c tid).state.clientProducers = s.clientProducers := by
  rw [createTransport_state]

lemma createTransport_producers (s : GatewayState) (c tid : Id) :
    (createTransport s c tid).state.producers = s.producers := by
  rw [createTransport_state]

/-! ## Invariant preservation -/

lemma roomConsistent_of_eq {s s' : GatewayState}
    (hr : s'.rooms = s.rooms) (hc : s'.clientRooms = s.clientRooms)
    (h : RoomConsistent s) : RoomConsistent s' := by
  intro r c hm
  rw [hc]
  refine h r c ?_
  rw [membersOf, ← hr]
  exact hm

lemma cpProps_of_eq {s s' : GatewayState}
    (hcp : s'.clientProducers = s.clientProducers)
    (hp : s'.producers = s.producers)
    (h : CpKeysNodup s ∧ CpInProducers s ∧ CpDisjoint s) :
    CpKeysNodup s' ∧ CpInProducers s' ∧ CpDisjoint s' := by
  unfold CpKeysNodup CpInProducers CpDisjoint
  rw [hcp, hp]
  exact h

lemma roomConsistent_joinRoom {s : GatewayState} {c : Id}
    (h : RoomConsistent s) (hne : s.clientRooms c ≠ some "") (rt : Id) :
    RoomConsistent (joinRoom s c rt).state := by
  intro r x hx
  rw [joinRoom_state] at hx ⊢
  show mset s.clientRooms c rt x = some r
  have hx' : x ∈ (mset (leaveRooms s c) rt
      (saddMem ((leaveRooms s c rt).getD []) c) r).getD [] := hx
  rw [mset_apply] at hx'
  rw [mset_apply]
  by_cases hxc : x = c
  · subst hxc
    rw [if_pos rfl]
    by_cases hr : r = rt
    · rw [hr]
    · rw [if_neg hr] at hx'
      exact absurd hx' (self_not_mem_leaveRooms h hne r)
  · rw [if_neg hxc]
    by_cases hr : r = rt
    · subst hr
      simp only [if_pos, Option.getD_some] at hx'
      rcases mem_saddMem.mp hx' with hmem | heq
      · exact h r x (leaveRooms_sub hmem)
      · exact absurd heq hxc
    · rw [if_neg hr] at hx'
      exact h r x (leaveRooms_sub hx')

lemma roomConsistent_handleDisconnect {s : GatewayState} (h : RoomConsistent s)
    (c : Id) : RoomConsistent (handleDisconnect s c).state := by
  intro r x hx
  rw [membersOf_handleDisconnect] at hx
  rw [handleDisconnect_clientRooms]
  rcases h1 : s.clientRooms c with _ | roomId
  · simp only [h1] at hx
    rw [if_neg (by simp : ¬ (none : Option Id) = some ""), mdel_apply]
    by_cases hxc : x = c
    · subst hxc
      exfalso
      have := h r x hx
      rw [h1] at this
      exact Option.noConfusion this
    · rw [if_neg hxc]
      exact h r x hx
  · simp only [h1] at hx
    by_cases hq : roomId = ""
    · subst hq
      rw [if_pos rfl] at hx ⊢
      exact h r x hx
    · rw [if_neg (by simp [hq] : ¬ (some roomId : Option Id) = some ""),
        mdel_apply]
      rw [if_neg hq] at hx
      by_cases hxc : x = c
      · subst hxc
        exfalso
        by_cases hr : r = roomId
        · subst hr
          rw [if_pos rfl] at hx
          exact self_not_mem_sdelMem _ _ hx
        · rw [if_neg hr] at hx
          have := h r x hx
          rw [h1] at this
          exact hr (Option.some.inj this).symm
      · rw [if_neg hxc]
        by_cases hr : r = roomId
        · subst hr
          rw [if_pos rfl] at hx
          exact h r x (mem_sdelMem.mp hx).1
        · rw [if_neg hr] at hx
          exact h r x hx

lemma alookup_none_not_mem_keys {α : Type} {cp : List (Id × α)} {c : Id}
    (h : alookup cp c = none) : c ∉ cp.map Prod.fst := by
  induction cp with
  | nil => simp
  | cons e es ih =>
    rw [alookup] at h
    by_cases hc : e.1 = c
    · simp [hc] at h
    · rw [if_neg hc] at h
      simp only [List.map_cons, List.mem_cons]
      rintro (h1 | h1)
      · exact hc h1.symm
      · exact ih h h1

lemma mem_cpPush {cp : List (Id × List Id)} {c pid : Id} {e' : Id × List Id}
    (h : e' ∈ cpPush cp c pid) :
    e' = (c, [pid]) ∨
      ∃ e ∈ cp, e' = e ∨ (e.1 = c ∧ e' = (e.1, e.2 ++ [pid])) := by
  unfold cpPush at h
  rcases hc : alookup cp c with _ | l
  · simp only [hc] at h
    rcases List.mem_append.mp h with h1 | h1
    · right
      exact ⟨e', h1, Or.inl rfl⟩
    · left
      simpa using h1
  · simp only [hc] at h
    rcases List.mem_map.mp h with ⟨e, he, hfe⟩
    right
    refine ⟨e, he, ?_⟩
    by_cases h1 : e.1 = c
    · right
      refine ⟨h1, ?_⟩
      rw [← hfe]
      simp [h1]
    · left
      rw [← hfe]
      simp [h1]

lemma keys_cpPush_none {cp : List (Id × List Id)} {c : Id} (pid : Id)
    (h : alookup cp c = none) :
    (cpPush cp c pid).map Prod.fst = cp.map Prod.fst ++ [c] := by
  unfold cpPush
  rw [h]
  simp

lemma keys_cpPush_some {cp : List (Id × List Id)} {c : Id} (pid : Id) {l : List Id}
    (h : alookup cp c = some l) :
    (cpPush cp c pid).map Prod.fst = cp.map Prod.fst := by
  unfold cpPush
  rw [h]
  rw [List.map_map]
  apply List.map_congr_left
  intro x _
  by_cases hx : x.1 = c <;> simp [hx]

lemma fresh_not_in_cp {s : GatewayState} (hin : CpInProducers s) {pid : Id}
    (h : s.producers pid = none) :
    ∀ e ∈ s.clientProducers, pid ∉ e.2 := by
  intro e he hp
  have := hin e he pid hp
  rw [h] at this
  simp at this

lemma mem_cpPush_elem {cp : List (Id × List Id)} {c pid q : Id}
    {e' : Id × List Id} (he' : e' ∈ cpPush cp c pid) (hq : q ∈ e'.2) :
    (e'.1 = c ∧ q = pid) ∨ (∃ f ∈ cp, e'.1 = f.1 ∧ q ∈ f.2) := by
  rcases mem_cpPush he' with heq | ⟨e, he, hcase⟩
  · subst heq
    simp only [List.mem_singleton] at hq
    exact Or.inl ⟨rfl, hq⟩
  · rcases hcase with heq2 | ⟨h1, heq2⟩
    · refine Or.inr ⟨e, he, ?_, ?_⟩
      · rw [heq2]
      · rw [heq2] at hq
        exact hq
    · rw [heq2] at hq
      rcases List.mem_append.mp hq with h2 | h2
      · refine Or.inr ⟨e, he, ?_, h2⟩
        rw [heq2]
      · simp only [List.mem_singleton] at h2
        refine Or.inl ⟨?_, h2⟩
        rw [heq2]
        exact h1

lemma noEmptyRoom_of_eq {s s' : GatewayState}
    (hc : s'.clientRooms = s.clientRooms) (h : NoEmptyRoom s) :
    NoEmptyRoom s' := by
  intro c
  rw [hc]
  exact h c

lemma cpInv_joinRoom {s : GatewayState} (h : CpInv s) (c rt : Id) :
    CpInv (joinRoom s c rt).state := by
  refine cpProps_of_eq ?_ ?_ h <;> rw [joinRoom_state]

lemma cpInv_handleDisconnect {s : GatewayState} (h : CpInv s) (c : Id) :
    CpInv (handleDisconnect s c).state := by
  obtain ⟨hk, hin, hd⟩ := h
  refine ⟨?_, ?_, ?_⟩
  · unfold CpKeysNodup
    rw [handleDisconnect_clientProducers]
    exact List.Nodup.sublist ((List.filter_sublist _).map Prod.fst) hk
  · unfold CpInProducers
    rw [handleDisconnect_clientProducers, handleDisconnect_producers]
    intro e he pid hp
    exact hin e (List.mem_of_mem_filter he) pid hp
  · unfold CpDisjoint
    rw [handleDisconnect_clientProducers]
    intro e1 he1 e2 he2 pid hp1 hp2
    exact hd e1 (List.mem_of_mem_filter he1) e2 (List.mem_of_mem_filter he2)
      pid hp1 hp2

lemma cpInv_produce {s : GatewayState} (h : CpInv s) (c t k pid : Id)
    (hfresh : s.producers pid = none) : CpInv (produce s c t k pid).state := by
  obtain ⟨hk, hin, hd⟩ := h
  by_cases ht : (s.transports t).isSome
  · rw [produce_state, if_pos ht]
    refine ⟨?_, ?_, ?_⟩
    · unfold CpKeysNodup
      show ((cpPush s.clientProducers c pid).map Prod.fst).Nodup
      rcases hc : alookup s.clientProducers c with _ | l
      · rw [keys_cpPush_none pid hc, List.nodup_append]
        refine ⟨hk, by simp, ?_⟩
        intro a ha hb
        simp only [List.mem_singleton] at hb
        subst hb
        exact alookup_none_not_mem_keys hc ha
      · rw [keys_cpPush_some pid hc]
        exact hk
    · unfold CpInProducers
      intro e' he' q hq
      show (mset s.producers pid k q).isSome = true
      rw [mset_apply]
      by_cases hqp : q = pid
      · simp [hqp]
      · rw [if_neg hqp]
        rcases mem_cpPush_elem he' hq with ⟨_, h2⟩ | ⟨f, hf, _, h2⟩
        · exact absurd h2 hqp
        · exact hin f hf q h2
    · unfold CpDisjoint
      intro e1 he1 e2 he2 q hq1 hq2
      have hnotin := fresh_not_in_cp hin hfresh
      rcases mem_cpPush_elem he1 hq1 with ⟨hc1, hp1⟩ | ⟨f1, hf1, he1', hm1⟩ <;>
        rcases mem_cpPush_elem he2 hq2 with ⟨hc2, hp2⟩ | ⟨f2, hf2, he2', hm2⟩
      · rw [hc1, hc2]
      · exact absurd (hp1 ▸ hm2) (hnotin f2 hf2)
      · exact absurd (hp2 ▸ hm1) (hnotin f1 hf1)
      · rw [he1', he2']
        exact hd f1 hf1 f2 hf2 q hm1 hm2
  · rw [produce_state, if_neg ht]
    exact ⟨hk, hin, hd⟩

lemma cpInv_consume {s : GatewayState} (h : CpInv s) (c t pid cid : Id) :
    CpInv (consume s c t pid cid).state :=
  cpProps_of_eq (consume_clientProducers s c t pid cid)
    (consume_producers s c t pid cid) h

lemma cpInv_resumeConsumer {s : GatewayState} (h : CpInv s) (cid : Id) :
    CpInv (resumeConsumer s cid).state :=
  cpProps_of_eq (resumeConsumer_clientProducers s cid)
    (resumeConsumer_producers s cid) h

lemma cpInv_connectTransport {s : GatewayState} (h : CpInv s) (t : Id) :
    CpInv (connectTransport s t).state := by
  rw [connectTransport_state]
  exact h

lemma cpInv_createTransport {s : GatewayState} (h : CpInv s) (c tid : Id) :
    CpInv (createTransport s c tid).state :=
  cpProps_of_eq (createTransport_clientProducers s c tid)
    (createTransport_producers s c tid) h

lemma cpInv_stepOp {s : GatewayState} (h : CpInv s) (op : Op)
    (hok : okOp s op = true) : CpInv (stepOp s op) := by
  cases op with
  | join c rt => exact cpInv_joinRoom h c rt
  | produce c t k pid =>
    exact cpInv_produce h c t k pid (Option.isNone_iff_eq_none.mp hok)
  | consume c t pid cid => exact cpInv_consume h c t pid cid
  | resumeConsumer c cid => exact cpInv_resumeConsumer h cid
  | connectTransport c t => exact cpInv_connectTransport h t
  | createTransport c tid => exact cpInv_createTransport h c tid
  | disconnect c => exact cpInv_handleDisconnect h c

lemma cpInv_execFrom {s : GatewayState} {ops : List Op} (h : CpInv s)
    (hwf : wfFrom s ops = true) : CpInv (execFrom s ops) := by
  induction ops generalizing s with
  | nil => exact h
  | cons op rest ih =>
    rw [wfFrom, Bool.and_eq_true] at hwf
    exact ih (cpInv_stepOp h op hwf.1) hwf.2

lemma cpInv_initState : CpInv initState := by
  refine ⟨?_, ?_, ?_⟩
  · simp [CpKeysNodup, initState]
  · intro e he
    simp [initState] at he
  · intro e1 he1
    simp [initState] at he1

lemma roomInv_joinRoom {s : GatewayState} (h : RoomInv s) (c rt : Id)
    (hrt : rt ≠ "") : RoomInv (joinRoom s c rt).state := by
  obtain ⟨hrc, hner⟩ := h
  constructor
  · exact roomConsistent_joinRoom hrc (hner c) rt
  · intro x
    rw [joinRoom_state]
    show mset s.clientRooms c rt x ≠ some ""
    rw [mset_apply]
    by_cases hx : x = c
    · rw [if_pos hx]
      intro he
      exact hrt (Option.some.inj he)
    · rw [if_neg hx]
      exact hner x

lemma roomInv_handleDisconnect {s : GatewayState} (h : RoomInv s) (c : Id) :
    RoomInv (handleDisconnect s c).state := by
  obtain ⟨hrc, hner⟩ := h
  constructor
  · exact roomConsistent_handleDisconnect hrc c
  · intro x
    rw [handleDisconnect_clientRooms]
    by_cases hq : s.clientRooms c = some ""
    · rw [if_pos hq]
      exact hner x
    · rw [if_neg hq, mdel_apply]
      by_cases hx : x = c
      · rw [if_pos hx]
        simp
      · rw [if_neg hx]
        exact hner x

lemma roomInv_stepOp {s : GatewayState} (h : RoomInv s) (op : Op)
    (hjv : joinValid op = true) : RoomInv (stepOp s op) := by
  cases op with
  | join c rt =>
    have hrt : rt ≠ "" := by simpa [joinValid] using hjv
    exact roomInv_joinRoom h c rt hrt
  | disconnect c => exact roomInv_handleDisconnect h c
  | produce c t k pid =>
    exact ⟨roomConsistent_of_eq (produce_rooms s c t k pid)
        (produce_clientRooms s c t k pid) h.1,
      noEmptyRoom_of_eq (produce_clientRooms s c t k pid) h.2⟩
  | consume c t pid cid =>
    exact ⟨roomConsistent_of_eq (consume_rooms s c t pid cid)
        (consume_clientRooms s c t pid cid) h.1,
      noEmptyRoom_of_eq (consume_clientRooms s c t pid cid) h.2⟩
  | resumeConsumer c cid =>
    exact ⟨roomConsistent_of_eq (resumeConsumer_rooms s cid)
        (resumeConsumer_clientRooms s cid) h.1,
      noEmptyRoom_of_eq (resumeConsumer_clientRooms s cid) h.2⟩
  | connectTransport c t =>
    rw [stepOp, connectTransport_state]
    exact h
  | createTransport c tid =>
    exact ⟨roomConsistent_of_eq (createTransport_rooms s c tid)
        (createTransport_clientRooms s c tid) h.1,
      noEmptyRoom_of_eq (createTransport_clientRooms s c tid) h.2⟩

lemma roomInv_execFrom {s : GatewayState} {ops : List Op} (h : RoomInv s)
    (hall : ops.all joinValid = true) : RoomInv (execFrom s ops) := by
  induction ops generalizing s with
  | nil => exact h
  | cons op rest ih =>
    rw [List.all_cons, Bool.and_eq_true] at hall
    exact ih (roomInv_stepOp h op hall.1) hall.2

lemma roomInv_initState : RoomInv initState := by
  constructor
  · intro r c hc
    simp [membersOf, initState] at hc
  · intro c
    simp [initState]

/-! ## Further helpers for the claim proofs -/

lemma mem_leaveRooms_of_ne {s : GatewayState} {c x r : Id} (hxc : x ≠ c)
    (hx : x ∈ membersOf s r) : x ∈ (leaveRooms s c r).getD [] := by
  unfold leaveRooms
  rcases h1 : s.clientRooms c with _ | prev
  · exact hx
  · by_cases hp : prev = ""
    · simp only [if_pos hp]
      exact hx
    · simp only [if_neg hp]
      rcases h2 : s.rooms prev with _ | l
      · simp only [h2]
        exact hx
      · simp only [h2, mset_apply]
        by_cases hr : r = prev
        · subst hr
          simp only [if_pos, Option.getD_some]
          rw [membersOf, h2] at hx
          exact mem_sdelMem.mpr ⟨hx, hxc⟩
        · rw [if_neg hr]
          exact hx

lemma leaveRooms_isSome {s : GatewayState} (c r : Id)
    (h : (s.rooms r).isSome = true) : (leaveRooms s c r).isSome = true := by
  unfold leaveRooms
  rcases h1 : s.clientRooms c with _ | prev
  · exact h
  · by_cases hp : prev = ""
    · simp only [if_pos hp]
      exact h
    · simp only [if_neg hp]
      rcases h2 : s.rooms prev with _ | l
      · simp only [h2]
        exact h
      · simp only [h2, mset_apply]
        by_cases hr : r = prev
        · simp [hr]
        · rw [if_neg hr]
          exact h

lemma handleDisconnect_rooms (s : GatewayState) (c r : Id) :
    (handleDisconnect s c).state.rooms r =
      match s.clientRooms c with
      | some roomId =>
        if roomId = "" then s.rooms r
        else
          match s.rooms roomId with
          | some room => mset s.rooms roomId (sdelMem room c) r
          | none => s.rooms r
      | none => s.rooms r := by
  unfold handleDisconnect
  rcases h1 : s.clientRooms c with _ | roomId
  · rfl
  · by_cases hq : roomId = ""
    · simp only [if_pos hq]
    · simp only [if_neg hq]
      rcases h2 : s.rooms roomId with _ | room <;> simp only [h2]

lemma ownerOf_some {cp : List (Id × List Id)} {pid o : Id}
    (h : ownerOf cp pid = some o) : ∃ f ∈ cp, f.1 = o ∧ pid ∈ f.2 := by
  unfold ownerOf at h
  rcases hf : cp.find? (fun e => e.2.contains pid) with _ | f
  · rw [hf] at h
    simp at h
  · rw [hf] at h
    have hfo : f.1 = o := Option.some.inj h
    have hc := List.find?_some hf
    refine ⟨f, List.mem_of_find?_eq_some hf, hfo, ?_⟩
    simpa using hc

lemma cpList_mem_entry {cp : List (Id × List Id)} {c pid : Id}
    (h : pid ∈ cpList cp c) : ∃ l, (c, l) ∈ cp ∧ pid ∈ l := by
  unfold cpList at h
  rcases ha : alookup cp c with _ | l
  · rw [ha] at h
    simp at h
  · rw [ha] at h
    exact ⟨l, mem_of_alookup ha, h⟩

lemma not_mem_after_disconnect {s : GatewayState} {c : Id}
    (h : RoomConsistent s) (hne : s.clientRooms c ≠ some "") :
    ∀ r, c ∉ membersOf (handleDisconnect s c).state r := by
  intro r hc
  rw [membersOf_handleDisconnect] at hc
  rcases h1 : s.clientRooms c with _ | roomId
  · simp only [h1] at hc
    have := h r c hc
    rw [h1] at this
    exact Option.noConfusion this
  · simp only [h1] at hc
    have hq : ¬ roomId = "" := by
      intro he
      exact hne (by rw [h1, he])
    rw [if_neg hq] at hc
    by_cases hr : r = roomId
    · subst hr
      rw [if_pos rfl] at hc
      exact self_not_mem_sdelMem _ _ hc
    · rw [if_neg hr] at hc
      have := h r c hc
      rw [h1] at this
      exact hr (Option.some.inj this).symm

lemma notMember_stepOp {s : GatewayState} {d : Id}
    (h : ∀ r, d ∉ membersOf s r) (op : Op) (hop : joinsBy d op = false) :
    ∀ r, d ∉ membersOf (stepOp s op) r := by
  cases op with
  | join c rt =>
    have hcd : ¬ c = d := by
      simpa [joinsBy] using hop
    intro r hd
    rw [stepOp, joinRoom_state] at hd
    have hd' : d ∈ (mset (leaveRooms s c) rt
        (saddMem ((leaveRooms s c rt).getD []) c) r).getD [] := hd
    rw [mset_apply] at hd'
    by_cases hr : r = rt
    · subst hr
      simp only [if_pos, Option.getD_some] at hd'
      rcases mem_saddMem.mp hd' with hmem | heq
      · exact h r (leaveRooms_sub hmem)
      · exact hcd heq.symm
    · rw [if_neg hr] at hd'
      exact h r (leaveRooms_sub hd')
  | disconnect c =>
    intro r hd
    rw [stepOp, membersOf_handleDisconnect] at hd
    rcases h1 : s.clientRooms c with _ | roomId
    · simp only [h1] at hd
      exact h r hd
    · simp only [h1] at hd
      by_cases hq : roomId = ""
      · rw [if_pos hq] at hd
        exact h r hd
      · rw [if_neg hq] at hd
        by_cases hr : r = roomId
        · subst hr
          rw [if_pos rfl] at hd
          exact h r (mem_sdelMem.mp hd).1
        · rw [if_neg hr] at hd
          exact h r hd
  | produce c t k pid =>
    intro r hd
    rw [stepOp, membersOf, produce_rooms] at hd
    exact h r hd
  | consume c t pid cid =>
    intro r hd
    rw [stepOp, membersOf, consume_rooms] at hd
    exact h r hd
  | resumeConsumer c cid =>
    intro r hd
    rw [stepOp, membersOf, resumeConsumer_rooms] at hd
    exact h r hd
  | connectTransport c t =>
    intro r hd
    rw [stepOp, connectTransport_state] at hd
    exact h r hd
  | createTransport c tid =>
    intro r hd
    rw [stepOp, membersOf, createTransport_rooms] at hd
    exact h r hd

lemma notMember_execFrom {s : GatewayState} {d : Id} {ops : List Op}
    (h : ∀ r, d ∉ membersOf s r)
    (hops : ops.all (fun op => !(joinsBy d op)) = true) :
    ∀ r, d ∉ membersOf (execFrom s ops) r := by
  induction ops generalizing s with
  | nil => exact h
  | cons op rest ih =>
    rw [List.all_cons, Bool.and_eq_true, Bool.not_eq_true'] at hops
    exact ih (notMember_stepOp h op hops.1) hops.2

lemma execFrom_append (s : GatewayState) (l1 l2 : List Op) :
    execFrom s (l1 ++ l2) = execFrom (execFrom s l1) l2 := by
  induction l1 generalizing s with
  | nil => rfl
  | cons op rest ih =>
    rw [List.cons_append, execFrom, execFrom, ih]

lemma consume_cases (s : GatewayState) (c t pid cid : Id) :
    consume s c t pid cid =
      match s.transports t with
      | none => { state := s, events := [], result := .error .TransportNotFound }
      | some _ =>
        match s.producers pid with
        | none => { state := s, events := [], result := .error .ProducerNotFound }
        | some producerKind =>
          if ownerOf s.clientProducers pid = some c then
            { state := s, events := [],
              result := .error .CannotConsumeOwnProducer }
          else
            { state := { s with consumers := mset s.consumers cid false },
              events := [Event.engineConsume t pid false],
              result := .ok { id := cid, producerId := pid,
                              kind := producerKind } } := rfl

lemma sdelMem_singleton_self (c : Id) : sdelMem [c] c = [] := by
  simp [sdelMem]

/-! ## Claim theorems -/

/-- C7: a `produce` request whose transportId is absent from the transport
table fails with the `NotFound`-style error, and on that failure the whole
state is unchanged — in particular no producer is registered in the
producer directory or the producer table — and no event (so no
`newProducer` notification) is emitted. -/
theorem C7_produce_unknown_transport_no_effect (s : GatewayState)
    (c t k pid : Id) (h : s.transports t = none) :
    (produce s c t k pid).state = s ∧
    (produce s c t k pid).events = [] ∧
    (produce s c t k pid).result = Except.error Err.TransportNotFound := by
  rw [produce_notFound s c t k pid h]
  exact ⟨rfl, rfl, rfl⟩

/-- Witness for C7: concrete failing produce on the empty state. -/
theorem C7_witness :
    initState.transports "t0" = none ∧
    ((produce initState "A" "t0" "audio" "p1").state = initState ∧
     (produce initState "A" "t0" "audio" "p1").events = [] ∧
     (produce initState "A" "t0" "audio" "p1").result =
       Except.error Err.TransportNotFound) :=
  ⟨rfl,
    C7_produce_unknown_transport_no_effect initState "A" "t0" "audio" "p1" rfl⟩

/-- C8: `resumeConsumer` always acknowledges `{resumed: true}` — also when
the consumer id is unknown to the consumer table — and never returns an
error; when the consumer exists, the engine resume call is issued. -/
theorem C8_resumeConsumer_never_fails (s : GatewayState) (cid : Id) :
    (resumeConsumer s cid).result = true ∧
    ((s.consumers cid).isSome = true →
      Event.engineResume cid ∈ (resumeConsumer s cid).events) := by
  unfold resumeConsumer
  rcases h : s.consumers cid with _ | b
  · exact ⟨rfl, by simp⟩
  · exact ⟨rfl, by intro _; simp⟩

/-- Witness for C8: resuming an existing consumer. -/
theorem C8_witness :
    (resumeConsumer (stepOp sProduced (Op.consume "B" "tB" "p1" "c1"))
        "c1").result = true ∧
    Event.engineResume "c1" ∈
      (resumeConsumer (stepOp sProduced (Op.consume "B" "tB" "p1" "c1"))
        "c1").events := by
  have h := C8_resumeConsumer_never_fails
    (stepOp sProduced (Op.consume "B" "tB" "p1" "c1")) "c1"
  exact ⟨h.1, h.2 (by decide)⟩

/-- C9 counterexample: B is the sole member of the empty-string room; on
B's disconnect the falsy `if (roomId)` guard skips the member-set removal,
so the room keeps its stale member `["B"]` instead of ending with an empty
member set. -/
theorem C9_counterexample :
    sEmptyRoom.clientRooms "B" = some "" ∧
    sEmptyRoom.rooms "" = some ["B"] ∧
    (stepOp sEmptyRoom (Op.disconnect "B")).rooms "" = some ["B"] := by
  refine ⟨rfl, rfl, rfl⟩

/-- C9 (amended): room entries are never removed by any operation; when the
last member of a room with a non-empty id disconnects, or leaves it by
joining another room, the room entry survives with an empty member set and
every other room's entry is untouched.  (For the empty-string room id the
falsy `if (roomId)` / `if (previousRoom)` guards skip the member removal,
so the entry survives with its stale member instead.) -/
theorem C9_room_entries_persist (s : GatewayState) (op : Op) :
    (∀ r, (s.rooms r).isSome = true → ((stepOp s op).rooms r).isSome = true) ∧
    (∀ c r, op = Op.disconnect c → r ≠ "" → s.clientRooms c = some r →
      s.rooms r = some [c] →
      (stepOp s op).rooms r = some [] ∧
      ∀ r', r' ≠ r → (stepOp s op).rooms r' = s.rooms r') ∧
    (∀ c r rt, op = Op.join c rt → r ≠ "" → s.clientRooms c = some r →
      s.rooms r = some [c] → r ≠ rt →
      (stepOp s op).rooms r = some [] ∧
      ∀ r', r' ≠ r → r' ≠ rt → (stepOp s op).rooms r' = s.rooms r') := by
  refine ⟨?_, ?_, ?_⟩
  · intro r hr
    cases op with
    | join c rt =>
      rw [stepOp, joinRoom_state]
      show (mset (leaveRooms s c) rt
        (saddMem ((leaveRooms s c rt).getD []) c) r).isSome = true
      rw [mset_apply]
      by_cases h : r = rt
      · simp [h]
      · rw [if_neg h]
        exact leaveRooms_isSome c r hr
    | disconnect c =>
      rw [stepOp, handleDisconnect_rooms]
      rcases h1 : s.clientRooms c with _ | roomId
      · exact hr
      · by_cases hq : roomId = ""
        · simp only [if_pos hq]
          exact hr
        · simp only [if_neg hq]
          rcases h2 : s.rooms roomId with _ | room
          · simp only [h2]
            exact hr
          · simp only [h2, mset_apply]
            by_cases h : r = roomId
            · simp [h]
            · rw [if_neg h]
              exact hr
    | produce c t k pid =>
      rw [stepOp, produce_rooms]
      exact hr
    | consume c t pid cid =>
      rw [stepOp, consume_rooms]
      exact hr
    | resumeConsumer c cid =>
      rw [stepOp, resumeConsumer_rooms]
      exact hr
    | connectTransport c t =>
      rw [stepOp, connectTransport_state]
      exact hr
    | createTransport c tid =>
      rw [stepOp, createTransport_rooms]
      exact hr
  · rintro c r rfl hrne hcr hr
    constructor
    · rw [stepOp, handleDisconnect_rooms]
      simp only [hcr, if_neg hrne, hr, mset_apply]
      simp [sdelMem_singleton_self]
    · intro r' hne
      rw [stepOp, handleDisconnect_rooms]
      simp only [hcr, if_neg hrne, hr, mset_apply]
      rw [if_neg hne]
  · rintro c r rt rfl hrne hcr hr hne
    constructor
    · rw [stepOp, joinRoom_state]
      show mset (leaveRooms s c) rt
        (saddMem ((leaveRooms s c rt).getD []) c) r = some []
      rw [mset_apply, if_neg hne]
      unfold leaveRooms
      simp only [hcr, if_neg hrne, hr, mset_apply]
      simp [sdelMem_singleton_self]
    · intro r' h1 h2
      rw [stepOp, joinRoom_state]
      show mset (leaveRooms s c) rt
        (saddMem ((leaveRooms s c rt).getD []) c) r' = s.rooms r'
      rw [mset_apply, if_neg h2]
      unfold leaveRooms
      simp only [hcr, if_neg hrne, hr, mset_apply]
      rw [if_neg h1]

/-- Witness for C9: B disconnects as last member of r2 (A sits in r1): r2
survives empty and r1 is untouched; and A leaves r1 for r3 by rejoining:
r1 survives empty. -/
theorem C9_witness :
    ((stepOp sTwoRooms (Op.disconnect "C")).rooms "r2" = some [] ∧
     (stepOp sTwoRooms (Op.disconnect "C")).rooms "r1" = sTwoRooms.rooms "r1") ∧
    ((stepOp sTwoRooms (Op.join "C" "r3")).rooms "r2" = some [] ∧
     (stepOp sTwoRooms (Op.join "C" "r3")).rooms "r1" = sTwoRooms.rooms "r1") ∧
    ((stepOp sTwoRooms (Op.disconnect "C")).rooms "r2").isSome = true := by
  have h1 := (C9_room_entries_persist sTwoRooms (Op.disconnect "C")).2.1
    "C" "r2" rfl (by decide) (by decide) (by decide)
  have h2 := (C9_room_entries_persist sTwoRooms (Op.join "C" "r3")).2.2
    "C" "r2" "r3" rfl (by decide) (by decide) (by decide) (by decide)
  refine ⟨⟨h1.1, h1.2 "r1" (by decide)⟩,
    ⟨h2.1, h2.2 "r1" (by decide) (by decide)⟩, ?_⟩
  exact (C9_room_entries_persist sTwoRooms (Op.disconnect "C")).1 "r2" (by decide)

/-- C10: a producer id registered in the directory whose id is missing from
the engine producer table is still listed by `join` and its kind defaults
to "audio"; the join succeeds rather than failing. -/
theorem C10_missing_producer_defaults_to_audio (s : GatewayState)
    (c rt other pid : Id) (hne : other ≠ c)
    (hmem : other ∈ membersOf s rt)
    (hpid : pid ∈ cpList s.clientProducers other)
    (hmiss : s.producers pid = none) :
    ({ producerId := pid, clientId := other, kind := "audio" } : ProducerInfo) ∈
      (joinRoom s c rt).result.existingProducers ∧
    (joinRoom s c rt).result.joined = true := by
  constructor
  · rw [joinRoom_result]
    show _ ∈ (sdelMem (membersOf (joinRoom s c rt).state rt) c).flatMap
      (producerEntries s)
    apply List.mem_flatMap.mpr
    refine ⟨other, ?_, ?_⟩
    · apply mem_sdelMem.mpr
      refine ⟨?_, hne⟩
      rw [joinRoom_state]
      show other ∈ (mset (leaveRooms s c) rt
        (saddMem ((leaveRooms s c rt).getD []) c) rt).getD []
      rw [mset_apply, if_pos rfl]
      simp only [Option.getD_some]
      exact mem_saddMem.mpr (Or.inl (mem_leaveRooms_of_ne hne hmem))
    · unfold producerEntries
      apply List.mem_map.mpr
      refine ⟨pid, hpid, ?_⟩
      simp [kindOrAudio, hmiss]
  · rfl

/-- Witness for C10 at a state whose directory lists p1 for B while the
producer table lacks p1. -/
theorem C10_witness :
    ("B" : Id) ≠ "A" ∧ "B" ∈ membersOf sOrphan "r1" ∧
    "p1" ∈ cpList sOrphan.clientProducers "B" ∧
    sOrphan.producers "p1" = none ∧
    (({ producerId := "p1", clientId := "B", kind := "audio" } : ProducerInfo) ∈
        (joinRoom sOrphan "A" "r1").result.existingProducers ∧
      (joinRoom sOrphan "A" "r1").result.joined = true) := by
  refine ⟨by decide, by decide, by decide, by decide, ?_⟩
  exact C10_missing_producer_defaults_to_audio sOrphan "A" "r1" "B" "p1"
    (by decide) (by decide) (by decide) (by decide)

/-- C1 counterexample: at a concrete reachable state (A produced p1, B
consumes it) the consume succeeds and the engine call is made with
`paused: false` — the Consumer is created unpaused, contradicting "created
in the paused state". -/
theorem C1_counterexample :
    (consume sProduced "B" "tB" "p1" "c1").result =
      Except.ok { id := "c1", producerId := "p1", kind := "audio" } ∧
    (consume sProduced "B" "tB" "p1" "c1").events =
      [Event.engineConsume "tB" "p1" false] ∧
    (consume sProduced "B" "tB" "p1" "c1").state.consumers "c1" = some false := by
  refine ⟨rfl, rfl, rfl⟩

/-- C1 (amended): every successful `consume` creates the Consumer unpaused:
the engine consume call receives `paused: false` and the stored consumer's
paused flag is `false`, so media can flow before any `resumeConsumer`. -/
theorem C1_consumer_created_unpaused (s : GatewayState) (c t pid cid : Id)
    (res : ConsumeRes)
    (h : (consume s c t pid cid).result = Except.ok res) :
    (consume s c t pid cid).events = [Event.engineConsume t pid false] ∧
    (consume s c t pid cid).state.consumers cid = some false := by
  rw [consume_cases] at h ⊢
  rcases h1 : s.transports t with _ | u
  · rw [h1] at h
    dsimp only at h
    exact Except.noConfusion h
  · rw [h1] at h
    dsimp only at h ⊢
    rcases h2 : s.producers pid with _ | pk
    · rw [h2] at h
      dsimp only at h
      exact Except.noConfusion h
    · rw [h2] at h
      dsimp only at h ⊢
      by_cases h3 : ownerOf s.clientProducers pid = some c
      · rw [if_pos h3] at h
        exact Except.noConfusion h
      · rw [if_neg h3]
        refine ⟨rfl, ?_⟩
        show mset s.consumers cid false cid = some false
        rw [mset_apply, if_pos rfl]

/-- Witness for C1: the concrete successful consume of `C1_counterexample`
instantiates the amended theorem. -/
theorem C1_witness :
    (consume sProduced "B" "tB" "p1" "c1").events =
      [Event.engineConsume "tB" "p1" false] ∧
    (consume sProduced "B" "tB" "p1" "c1").state.consumers "c1" = some false :=
  C1_consumer_created_unpaused sProduced "B" "tB" "p1" "c1"
    { id := "c1", producerId := "p1", kind := "audio" } rfl

/-- C2 counterexample: A (in r1, with B) rejoins into r2 (where C sits);
the rejoin emits only `userJoined` to r2's member C — the remaining member
B of the previous room receives no `userLeft`. -/
theorem C2_counterexample :
    sTwoRooms.clientRooms "A" = some "r1" ∧
    "B" ∈ membersOf sTwoRooms "r1" ∧
    (joinRoom sTwoRooms "A" "r2").events = [Event.userJoined ["C"] "A"] := by
  refine ⟨rfl, by decide, rfl⟩

/-- C2 (amended): a join that switches rooms from a previous room with a
non-empty id removes the endpoint from that room's member set silently: the
only event emitted is one `userJoined` to the new room's other members — no
`userLeft` is sent — while the remaining members of the previous room stay
in its member set.  (For a previous room recorded as the empty string the
falsy `if (previousRoom)` guard skips even the removal; still no
`userLeft`.) -/
theorem C2_rejoin_emits_no_userLeft (s : GatewayState) (c rt prevR : Id)
    (hprev : s.clientRooms c = some prevR) (hne : prevR ≠ rt)
    (hpne : prevR ≠ "") :
    (joinRoom s c rt).events =
      [Event.userJoined (sdelMem (membersOf (joinRoom s c rt).state rt) c) c] ∧
    c ∉ membersOf (joinRoom s c rt).state prevR ∧
    (∀ x, x ∈ membersOf s prevR → x ≠ c →
      x ∈ membersOf (joinRoom s c rt).state prevR) := by
  refine ⟨joinRoom_events s c rt, ?_, ?_⟩
  · rw [joinRoom_state]
    show c ∉ (mset (leaveRooms s c) rt
      (saddMem ((leaveRooms s c rt).getD []) c) prevR).getD []
    rw [mset_apply, if_neg hne]
    unfold leaveRooms
    simp only [hprev, if_neg hpne]
    rcases h2 : s.rooms prevR with _ | l
    · simp only [h2]
      simp [h2]
    · simp only [h2, mset_apply, if_pos, Option.getD_some]
      exact self_not_mem_sdelMem l c
  · intro x hx hxc
    rw [joinRoom_state]
    show x ∈ (mset (leaveRooms s c) rt
      (saddMem ((leaveRooms s c rt).getD []) c) prevR).getD []
    rw [mset_apply, if_neg hne]
    exact mem_leaveRooms_of_ne hxc hx

/-- Witness for C2: A rejoins from r1 into r2; A vanishes from r1 while B
remains a member of r1. -/
theorem C2_witness :
    "A" ∉ membersOf (joinRoom sAB "A" "r2").state "r1" ∧
    "B" ∈ membersOf (joinRoom sAB "A" "r2").state "r1" := by
  have h := C2_rejoin_emits_no_userLeft sAB "A" "r2" "r1" rfl (by decide)
    (by decide)
  exact ⟨h.2.1, h.2.2 "B" (by decide) (by decide)⟩

/-- C3 counterexample: A owns p1, yet a consume of p1 by A through an
unknown transport id fails with `TransportNotFound`, not with the
`InvalidOperation`-style "cannot consume own producer" error. -/
theorem C3_counterexample :
    ownerOf sSelf.clientProducers "p1" = some "A" ∧
    (consume sSelf "A" "tX" "p1" "c1").result =
      Except.error Err.TransportNotFound := by
  refine ⟨rfl, rfl⟩

/-- C3 (amended): a consume of a producer owned by the caller never creates
a Consumer, never reaches the engine consume call, leaves the state
unchanged and always fails; the error is the `InvalidOperation`-style
"cannot consume own producer" precisely when the transport and producer
lookups succeed (otherwise the earlier `NotFound` wins). -/
theorem C3_self_consume_rejected (s : GatewayState) (c t pid cid : Id)
    (hown : ownerOf s.clientProducers pid = some c) :
    ((consume s c t pid cid).state = s ∧
     (consume s c t pid cid).events = [] ∧
     ∃ e, (consume s c t pid cid).result = Except.error e) ∧
    ((s.transports t).isSome = true → (s.producers pid).isSome = true →
      (consume s c t pid cid).result =
        Except.error Err.CannotConsumeOwnProducer) := by
  rw [consume_cases]
  rcases h1 : s.transports t with _ | u
  · refine ⟨⟨rfl, rfl, Err.TransportNotFound, rfl⟩, ?_⟩
    intro ht _
    simp at ht
  · dsimp only
    rcases h2 : s.producers pid with _ | pk
    · refine ⟨⟨rfl, rfl, Err.ProducerNotFound, rfl⟩, ?_⟩
      intro _ hp
      simp at hp
    · dsimp only
      rw [if_pos hown]
      exact ⟨⟨rfl, rfl, Err.CannotConsumeOwnProducer, rfl⟩, fun _ _ => rfl⟩

/-- Witness for C3: A consumes its own p1 through its valid transport tA:
the guard fires, no consumer is created and the state is unchanged. -/
theorem C3_witness :
    (consume sSelf "A" "tA" "p1" "c9").state = sSelf ∧
    (consume sSelf "A" "tA" "p1" "c9").events = [] ∧
    (consume sSelf "A" "tA" "p1" "c9").result =
      Except.error Err.CannotConsumeOwnProducer := by
  have h := C3_self_consume_rejected sSelf "A" "tA" "p1" "c9" rfl
  exact ⟨h.1.1, h.1.2.1, h.2 (by decide) (by decide)⟩

/-- C4 counterexample: nothing validates room ids, so A joins the
empty-string room and then room r1; the falsy `if (previousRoom)` guard at
the rejoin skips the leave, and A is recorded in both rooms' member sets at
once. -/
theorem C4_counterexample :
    "A" ∈ membersOf sDoubleJoin "" ∧
    "A" ∈ membersOf sDoubleJoin "r1" ∧
    ("" : Id) ≠ "r1" := by
  refine ⟨by decide, by decide, by decide⟩

/-- C4 (amended): along every trace whose joins obey the spec's stated
precondition that roomId is a non-empty identifier, an endpoint is a member
of at most one room's member set, and any membership agrees with the
endpoint-to-room mapping.  (A join into the empty-string room defeats the
falsy `if (previousRoom)` guard and leaves the endpoint in two member
sets.) -/
theorem C4_at_most_one_room (ops : List Op)
    (hvr : ops.all joinValid = true) (c r1 r2 : Id)
    (h1 : c ∈ membersOf (execFrom initState ops) r1)
    (h2 : c ∈ membersOf (execFrom initState ops) r2) :
    r1 = r2 ∧ (execFrom initState ops).clientRooms c = some r1 := by
  have hinv := roomInv_execFrom roomInv_initState hvr
  have e1 := hinv.1 r1 c h1
  have e2 := hinv.1 r2 c h2
  refine ⟨?_, e1⟩
  have : some r1 = some r2 := e1.symm.trans e2
  exact Option.some.inj this

/-- Witness for C4 on a concrete trace. -/
theorem C4_witness :
    ("r1" : Id) = "r1" ∧
    (execFrom initState [Op.join "A" "r1"]).clientRooms "A" = some "r1" :=
  C4_at_most_one_room [Op.join "A" "r1"] (by decide) "A" "r1" "r1"
    (by decide) (by decide)

/-- C5: along every trace, every entry of the `existingProducers` list
returned by a `join` is attributed to another current member of the room
(never the caller), lists a producer registered to that member, and names
no producer the caller owns. -/
theorem C5_join_excludes_own_producers (ops : List Op)
    (hwf : wfFrom initState ops = true) (c rt : Id) (e : ProducerInfo)
    (he : e ∈ (joinRoom (execFrom initState ops) c rt).result.existingProducers) :
    e.clientId ≠ c ∧
    e.clientId ∈ membersOf (joinRoom (execFrom initState ops) c rt).state rt ∧
    e.producerId ∈
      cpList (execFrom initState ops).clientProducers e.clientId ∧
    ownerOf (execFrom initState ops).clientProducers e.producerId ≠ some c := by
  have hcp := cpInv_execFrom cpInv_initState hwf
  rw [joinRoom_result] at he
  have he' : e ∈ (sdelMem
      (membersOf (joinRoom (execFrom initState ops) c rt).state rt) c).flatMap
      (producerEntries (execFrom initState ops)) := he
  rcases List.mem_flatMap.mp he' with ⟨other, hother, hent⟩
  rcases mem_sdelMem.mp hother with ⟨hmem, hone⟩
  unfold producerEntries at hent
  rcases List.mem_map.mp hent with ⟨pid, hpid, hpe⟩
  subst hpe
  refine ⟨hone, hmem, hpid, ?_⟩
  intro hcon
  rcases ownerOf_some hcon with ⟨f, hf, hf1, hfpid⟩
  rcases cpList_mem_entry hpid with ⟨l, hl, hpl⟩
  have hfo : f.1 = (other, l).1 :=
    hcp.2.2 f hf (other, l) hl pid hfpid hpl
  have : c = other := by
    rw [← hf1]
    exact hfo
  exact hone this.symm

/-- Witness for C5: B joins a room where A has already produced p1. -/
theorem C5_witness :
    ({ producerId := "p1", clientId := "A", kind := "audio" } :
        ProducerInfo).clientId ≠ "B" ∧
    ({ producerId := "p1", clientId := "A", kind := "audio" } :
        ProducerInfo).clientId ∈
      membersOf (joinRoom (execFrom initState
        [Op.join "A" "r1", Op.createTransport "A" "tA",
         Op.produce "A" "tA" "audio" "p1"]) "B" "r1").state "r1" ∧
    ({ producerId := "p1", clientId := "A", kind := "audio" } :
        ProducerInfo).producerId ∈
      cpList (execFrom initState
        [Op.join "A" "r1", Op.createTransport "A" "tA",
         Op.produce "A" "tA" "audio" "p1"]).clientProducers
        ({ producerId := "p1", clientId := "A", kind := "audio" } :
          ProducerInfo).clientId ∧
    ownerOf (execFrom initState
        [Op.join "A" "r1", Op.createTransport "A" "tA",
         Op.produce "A" "tA" "audio" "p1"]).clientProducers
        ({ producerId := "p1", clientId := "A", kind := "audio" } :
          ProducerInfo).producerId ≠ some "B" :=
  C5_join_excludes_own_producers
    [Op.join "A" "r1", Op.createTransport "A" "tA",
     Op.produce "A" "tA" "audio" "p1"] (by decide) "B" "r1"
    { producerId := "p1", clientId := "A", kind := "audio" } (by decide)

/-- C6 counterexample: B joined the empty-string room; on B's disconnect
the falsy `if (roomId)` guard skips the member-set removal, so B is still a
member of room "" after disconnecting. -/
theorem C6_counterexample :
    "B" ∈ membersOf (stepOp sEmptyRoom (Op.disconnect "B")) "" := by
  decide

/-- C6 (amended): provided every join in the history used a non-empty room
id (the spec's join precondition), after an endpoint disconnects it is
absent from every room's member set, and no later `join` by another
endpoint — over any continuation in which the disconnected endpoint issues
no further join — returns an `existingProducers` entry attributed to it. -/
theorem C6_disconnected_endpoint_invisible (ops : List Op)
    (hvr : ops.all joinValid = true) (d : Id) (ops2 : List Op)
    (hnojoin : ops2.all (fun op => !(joinsBy d op)) = true)
    (c rt : Id) (hcd : c ≠ d) :
    (∀ r, d ∉ membersOf (execFrom initState (ops ++ [Op.disconnect d])) r) ∧
    (∀ e ∈ (joinRoom (execFrom initState (ops ++ Op.disconnect d :: ops2))
        c rt).result.existingProducers, e.clientId ≠ d) := by
  have hinv := roomInv_execFrom roomInv_initState hvr
  have h1 : ∀ r, d ∉ membersOf (execFrom initState (ops ++ [Op.disconnect d])) r := by
    rw [execFrom_append]
    exact not_mem_after_disconnect hinv.1 (hinv.2 d)
  refine ⟨h1, ?_⟩
  have hsplit : ops ++ Op.disconnect d :: ops2 =
      (ops ++ [Op.disconnect d]) ++ ops2 := by
    simp
  have h2 : ∀ r, d ∉ membersOf
      (execFrom initState (ops ++ Op.disconnect d :: ops2)) r := by
    rw [hsplit, execFrom_append]
    exact notMember_execFrom h1 hnojoin
  have h3 : ∀ r, d ∉ membersOf
      (joinRoom (execFrom initState (ops ++ Op.disconnect d :: ops2))
        c rt).state r :=
    notMember_stepOp h2 (Op.join c rt) (by simp [joinsBy, hcd])
  intro e he
  rw [joinRoom_result] at he
  have he' : e ∈ (sdelMem (membersOf
      (joinRoom (execFrom initState (ops ++ Op.disconnect d :: ops2))
        c rt).state rt) c).flatMap
      (producerEntries (execFrom initState (ops ++ Op.disconnect d :: ops2))) := he
  rcases List.mem_flatMap.mp he' with ⟨other, hother, hent⟩
  rcases mem_sdelMem.mp hother with ⟨hmem, _⟩
  unfold producerEntries at hent
  rcases List.mem_map.mp hent with ⟨pid, hpid, hpe⟩
  subst hpe
  intro hed
  show False
  have : other = d := hed
  subst this
  exact h3 rt hmem

/-- Witness for C6: B disconnects; later C produces and C joins; A's rejoin
lists C's producer, attributed to C, never to B. -/
theorem C6_witness :
    ("B" : Id) ∉ membersOf (execFrom initState
      ([Op.join "A" "r1", Op.join "B" "r1"] ++ [Op.disconnect "B"])) "r1" ∧
    ({ producerId := "pC", clientId := "C", kind := "audio" } :
        ProducerInfo).clientId ≠ "B" := by
  have h := C6_disconnected_endpoint_invisible
    [Op.join "A" "r1", Op.join "B" "r1"] (by decide) "B"
    [Op.createTransport "C" "tC", Op.produce "C" "tC" "audio" "pC",
     Op.join "C" "r1"] (by decide) "A" "r1" (by decide)
  refine ⟨h.1 "r1", ?_⟩
  exact h.2 { producerId := "pC", clientId := "C", kind := "audio" } (by decide)

end Sfu
